import Mathlib

/-!
A shallow embedding of the authorization and resource-lifecycle core of the
`design-system-manager` repository (an Express/Mongoose application), together
with proofs about it.

The embedded code is `src/routes/components.js` (the GET/POST/PUT/DELETE
handlers for components) and the Mongoose schema `src/models/Component.js`.
The authentication middleware `middleware/auth.js` (`authenticateToken`,
`requireRole`) is required by the routes but its file is not among the
sources; it is modelled below from the specification's contract, with the
concrete observable outcomes (HTTP status codes and messages) pinned by the
repository's own middleware tests (`tests/middleware.test.js`).

Conventions of the embedding:
- JavaScript strings stay `String`; Mongoose `ObjectId`s are opaque and are
  represented by `String`.
- A parsed JSON request body for `PUT` is an association list
  `List (String × String)`; later entries shadow earlier ones, matching
  `JSON.parse` (last duplicate key wins).  `Object.keys(o).length` is the
  number of distinct keys.
- Dates are `Nat` timestamps; `new Date()` is an explicit `now` parameter.
- The persistence layer (MongoDB via Mongoose) is a `List Component`;
  `findById` is lookup by id, `save` replaces the document with the same id,
  `findByIdAndDelete` removes it.  Mongoose validation (`required` and the
  status `enum` of `componentSchema`) runs on save; a validation failure
  surfaces as the route's 500 branch and persists nothing.
-/

namespace DSM

/-- The identity decoded from a verified JWT: the `{ id, username, role }`
claims signed at issuance (`routes/auth.js`, tests).  `role` is an open
string in the code (`req.user.role`), compared case-sensitively. -/
structure Identity where
  id : String
  username : String
  role : String
deriving Repr, DecidableEq

/-- A persisted component document, following `models/Component.js`.
`props`, `code`, `designTokens` and `tags` are payload the authorization
logic never inspects; they are kept as opaque JSON strings.  `id` is the
Mongo `_id` (immutable), `createdBy` the owner's user id. -/
structure Component where
  id : String
  name : String
  description : String
  category : String
  props : String
  code : String
  designTokens : String
  tags : String
  status : String
  createdBy : String
  updatedAt : Nat
  createdAt : Nat
deriving Repr, DecidableEq

/-- The status enumeration of `componentSchema.status`
(`enum: ['draft', 'review', 'approved', 'deprecated']`). -/
def statusEnum : List String := ["draft", "review", "approved", "deprecated"]

/-- The Mongoose validators of `componentSchema` that a `save` runs:
`name`, `description`, `category` and `createdBy` are `required` (an empty
string fails a required string validator), and `status` must belong to its
`enum`. -/
def Component.valid (c : Component) : Bool :=
  c.name != "" && c.description != "" && c.category != "" &&
  c.createdBy != "" && statusEnum.contains c.status

/-- The outcome a route handler sends: constructor ↔ the `res.status(...)`
/ `res.json(...)` call in `routes/components.js` (200 with a document,
200 with a message object, 201, 400, 401, 403, 404, 500). -/
inductive HttpResult where
  | ok (c : Component)
  | okMessage (msg : String)
  | created (c : Component)
  | badRequest (msg : String)
  | unauthorized (msg : String)
  | forbidden (msg : String)
  | notFound (msg : String)
  | serverError (msg : String)
deriving Repr, DecidableEq

/-- The HTTP status code Express sends for each outcome. -/
def HttpResult.statusCode : HttpResult → Nat
  | .ok _ => 200
  | .okMessage _ => 200
  | .created _ => 201
  | .badRequest _ => 400
  | .unauthorized _ => 401
  | .forbidden _ => 403
  | .notFound _ => 404
  | .serverError _ => 500

/-- Whether the outcome is a 403 permission denial (`res.status(403)`). -/
def HttpResult.isForbidden : HttpResult → Bool
  | .forbidden _ => true
  | _ => false

/-- A parsed JSON request body for `PUT`, as an association list of fields. -/
abbrev Body := List (String × String)

/-- Field access `o.k` on a parsed JSON object: the value of the last occurrence of key
`k`, or `none` (JavaScript `undefined`) when the key is absent. -/
def bodyGet (b : Body) (k : String) : Option String :=
  b.foldl (fun acc kv => if kv.1 = k then some kv.2 else acc) none

/-- The value of `Object.keys(o).length` on a parsed JSON object: the number of distinct
keys. -/
def numKeys (b : Body) : Nat :=
  (b.map Prod.fst).dedup.length

/-- Mongoose `Object.assign(component, updates)` for one field: keys that
are string paths of `componentSchema` overwrite the document's field; any
other key is not a schema path, so (schema strict mode) it is dropped on
save.  The date paths `createdAt`/`updatedAt` and the immutable `_id` are
not client-assignable here: the handler overrides `updatedAt` itself and no
claim concerns client-supplied dates. -/
def setField (c : Component) (k v : String) : Component :=
  if k = "name" then { c with name := v }
  else if k = "description" then { c with description := v }
  else if k = "category" then { c with category := v }
  else if k = "props" then { c with props := v }
  else if k = "code" then { c with code := v }
  else if k = "designTokens" then { c with designTokens := v }
  else if k = "tags" then { c with tags := v }
  else if k = "status" then { c with status := v }
  else if k = "createdBy" then { c with createdBy := v }
  else c

/-- Application of `Object.assign(component, { ...updates })`: apply every field of the
body in order (later duplicates win, as in `JSON.parse`). -/
def applyUpdates (c : Component) (b : Body) : Component :=
  b.foldl (fun c kv => setField c kv.1 kv.2) c

/-- The persistence collaborator: the current collection of components. -/
abbrev Store := List Component

/-- Lookup by id, `Component.findById(id)`. -/
def findById (store : Store) (cid : String) : Option Component :=
  store.find? (fun c => c.id == cid)

/-- Persisting `component.save()` on an existing document: replace the stored document
that has the same `_id`. -/
def saveStore (store : Store) (c : Component) : Store :=
  store.map (fun x => if x.id == c.id then c else x)

/-- JavaScript falsiness of an optional string field (`!name`,
`status || 'draft'`): absent (`undefined`) and the empty string are falsy. -/
def jsFalsy (o : Option String) : Bool :=
  o == none || o == some ""

/-- JavaScript `o || d` for an optional string: the default when falsy. -/
def jsOr (o : Option String) (d : String) : String :=
  if jsFalsy o then d else o.getD d

/-- The destructured fields of a `POST /` body
(`const { name, description, category, props, code, designTokens, tags,
status } = req.body`), each possibly absent. -/
structure CreateBody where
  name : Option String
  description : Option String
  category : Option String
  props : Option String
  code : Option String
  designTokens : Option String
  tags : Option String
  status : Option String
deriving Repr, DecidableEq

/-- Handler of `POST /` (`routes/components.js`, create component): requires `name`,
`description`, `category` to be truthy, builds the document with
`status: status || 'draft'` and `createdBy: req.user.id`, and saves it. -/
def createComponent (user : Identity) (b : CreateBody) (newId : String)
    (now : Nat) (store : Store) : HttpResult × Store :=
  if jsFalsy b.name || jsFalsy b.description || jsFalsy b.category then
    (.badRequest "Name, description, and category are required", store)
  else
    let c : Component :=
      { id := newId
        name := jsOr b.name ""
        description := jsOr b.description ""
        category := jsOr b.category ""
        props := jsOr b.props "[]"
        code := jsOr b.code "\x7b\x7d"
        designTokens := jsOr b.designTokens "[]"
        tags := jsOr b.tags "[]"
        status := jsOr b.status "draft"
        createdBy := user.id
        updatedAt := now
        createdAt := now }
    if c.valid then (.created c, store ++ [c])
    else (.serverError "validation failed", store)

/-- Handler of `PUT /:id` (`routes/components.js`, update component):
load the document (404 when absent); when the caller is neither the owner
nor an admin, allow only the narrow case `role === 'designer' &&
Object.keys(updates).length === 1 && updates.status === 'review'`, else 403
`Permission denied`; then 403 `Only admins can approve components` when
`updates.status === 'approved'` and the caller is not an admin; otherwise
`Object.assign` the updates (plus a fresh `updatedAt`) and save. -/
def updateComponent (user : Identity) (cid : String) (updates : Body)
    (now : Nat) (store : Store) : HttpResult × Store :=
  match findById store cid with
  | none => (.notFound "Component not found", store)
  | some component =>
    let proceed : HttpResult × Store :=
      if bodyGet updates "status" == some "approved" && user.role != "admin" then
        (.forbidden "Only admins can approve components", store)
      else
        let updated := { applyUpdates component updates with updatedAt := now }
        if updated.valid then (.ok updated, saveStore store updated)
        else (.serverError "validation failed", store)
    if component.createdBy != user.id && user.role != "admin" then
      if user.role == "designer" && numKeys updates == 1 &&
          bodyGet updates "status" == some "review" then
        proceed
      else (.forbidden "Permission denied", store)
    else proceed

/-- Modelled from the spec: the file `middleware/auth.js` is not among the
sources, only its callers and its tests are.  `requireRole(roles)` is the
Role Policy gate of §4.2/§4.4 rule 1: it allows exactly when the
authenticated caller's role is in the allowed list and otherwise denies;
the concrete denial observed by the repository's middleware tests is
403 `Insufficient permissions`. -/
def requireRole (roles : List String) (user : Identity) : Option HttpResult :=
  if roles.contains user.role then none
  else some (.forbidden "Insufficient permissions")

/-- Handler of `DELETE /:id` (`routes/components.js`): the route is guarded by
`requireRole(['admin'])` before the handler runs; the handler then does
`findByIdAndDelete` (404 when absent, else remove and report success). -/
def deleteComponent (user : Identity) (cid : String) (store : Store) :
    HttpResult × Store :=
  match requireRole ["admin"] user with
  | some err => (err, store)
  | none =>
    match findById store cid with
    | none => (.notFound "Component not found", store)
    | some _ =>
      (.okMessage "Component deleted successfully",
       store.filter (fun c => c.id != cid))

/-- An incoming bearer token as the verifier sees it: whether it parses as
a JWT, whether its signature verifies against the configured secret, whether
it is past its expiry, and the identity claims it carries. -/
structure RawToken where
  wellFormed : Bool
  signatureValid : Bool
  expired : Bool
  claims : Identity
deriving Repr, DecidableEq

/-- Modelled from the spec: `middleware/auth.js` is not among the sources.
`jwt.verify(token, secret)` per §4.1 is a pure check of form, signature and
expiry, yielding the signed claims exactly when all three pass. -/
def verifyToken (t : RawToken) : Option Identity :=
  if t.wellFormed && t.signatureValid && !t.expired then some t.claims
  else none

/-- Modelled from the spec: `middleware/auth.js` (`authenticateToken`) is
not among the sources.  Its observable contract is pinned by the
repository's middleware tests: a missing or malformed authorization header
(no extractable bearer token) is rejected with 401 `Access token required`;
a present token that fails `jwt.verify` (malformed, badly signed, or
expired) is rejected with 403 `Invalid or expired token`; a verified token
yields the signed identity. -/
def authenticateToken (tok : Option RawToken) : Except (Nat × String) Identity :=
  match tok with
  | none => .error (401, "Access token required")
  | some t =>
    match verifyToken t with
    | none => .error (403, "Invalid or expired token")
    | some u => .ok u

end DSM

namespace DSM

/-! ## Concrete fixtures, mirroring the repository's test data -/

/-- A stored draft component owned by user `u1` (cf. the `Test Component`
fixture of `tests/components.test.js`). -/
def demoComponent : Component :=
  { id := "c1", name := "Test Component", description := "A test component",
    category := "button", props := "[]", code := "\x7b\x7d",
    designTokens := "[]", tags := "[]", status := "draft",
    createdBy := "u1", updatedAt := 0, createdAt := 0 }

/-- The owner of `demoComponent`, a designer (cf. `testuser`). -/
def ownerUser : Identity := { id := "u1", username := "testuser", role := "designer" }

/-- A designer who does not own `demoComponent` (cf. `otheruser`). -/
def otherDesigner : Identity := { id := "u2", username := "otheruser", role := "designer" }

/-- A developer who does not own `demoComponent`. -/
def developerUser : Identity := { id := "u3", username := "devuser", role := "developer" }

/-- An admin (cf. the `admin` fixture). -/
def adminUser : Identity := { id := "a1", username := "admin", role := "admin" }

/-- A complete `POST /` body (cf. the `Primary Button` fixture). -/
def demoCreateBody : CreateBody :=
  { name := some "Primary Button", description := some "Main action button",
    category := some "button", props := none, code := none,
    designTokens := none, tags := none, status := none }

/-- The document `POST /` creates for `demoCreateBody` (no client status,
so the status defaults to `draft`). -/
def demoCreated : Component :=
  { id := "c9", name := "Primary Button", description := "Main action button",
    category := "button", props := "[]", code := "\x7b\x7d",
    designTokens := "[]", tags := "[]", status := "draft",
    createdBy := "u1", updatedAt := 0, createdAt := 0 }

/-- A well-formed, correctly signed token that is past its expiry
(cf. the `expiresIn: -1h` token of the middleware tests). -/
def expiredToken : RawToken :=
  { wellFormed := true, signatureValid := true, expired := true,
    claims := ownerUser }

/-! ## Helper lemmas -/

/-- A single `setField` step never touches the `_id`. -/
theorem setField_id (c : Component) (k v : String) : (setField c k v).id = c.id := by
  unfold setField
  split_ifs <;> rfl

/-- Applying a whole body of updates never touches the `_id`. -/
theorem applyUpdates_id (b : Body) (c : Component) : (applyUpdates c b).id = c.id := by
  induction b generalizing c with
  | nil => rfl
  | cons kv rest ih =>
    unfold applyUpdates at *
    simp only [List.foldl_cons]
    rw [ih, setField_id]

/-- A `setField` step for a key other than `createdBy` preserves the owner. -/
theorem setField_createdBy (c : Component) (k v : String) (h : k ≠ "createdBy") :
    (setField c k v).createdBy = c.createdBy := by
  unfold setField
  split_ifs <;> simp_all

/-- A body that contains no `createdBy` field preserves the owner. -/
theorem applyUpdates_createdBy (b : Body) (c : Component)
    (h : "createdBy" ∉ b.map Prod.fst) :
    (applyUpdates c b).createdBy = c.createdBy := by
  induction b generalizing c with
  | nil => rfl
  | cons kv rest ih =>
    simp only [List.map_cons, List.mem_cons] at h
    push_neg at h
    unfold applyUpdates at *
    simp only [List.foldl_cons]
    rw [ih _ h.2, setField_createdBy _ _ _ (fun hk => h.1 hk.symm)]

/-- A successful `findById` returns a document with the looked-up id. -/
theorem findById_some_id {store : Store} {cid : String} {c : Component}
    (h : findById store cid = some c) : c.id = cid := by
  have := List.find?_some h
  simpa using this

/-- Saving the updated document makes it the one `findById` returns,
provided the update kept the id of a document that was present. -/
theorem findById_saveStore {store : Store} {cid : String} {c u : Component}
    (hfind : findById store cid = some c) (hid : u.id = cid) :
    findById (saveStore store u) cid = some u := by
  induction store with
  | nil => simp [findById] at hfind
  | cons x rest ih =>
    by_cases hx : x.id = cid
    · have hstep : saveStore (x :: rest) u = u :: saveStore rest u := by
        simp [saveStore, hx, hid]
      rw [hstep]
      unfold findById
      exact List.find?_cons_of_pos _ (by simp [hid])
    · have hstep : saveStore (x :: rest) u = x :: saveStore rest u := by
        simp [saveStore, hid, hx]
      have hfind' : findById rest cid = some c := by
        unfold findById at hfind
        rwa [List.find?_cons_of_neg _ (by simp [hx])] at hfind
      rw [hstep]
      unfold findById
      rw [List.find?_cons_of_neg _ (by simp [hx])]
      exact ih hfind'

/-- A list with two distinct members has at least two distinct elements. -/
theorem two_le_dedup_length {l : List String} {a b : String}
    (ha : a ∈ l) (hb : b ∈ l) (hab : a ≠ b) : 2 ≤ l.dedup.length := by
  have h1 : a ∈ l.dedup := List.mem_dedup.mpr ha
  have h2 : b ∈ l.dedup := List.mem_dedup.mpr hb
  match hd : l.dedup with
  | [] => rw [hd] at h1; simp at h1
  | [x] =>
    rw [hd] at h1 h2
    simp at h1 h2
    exact absurd (h1.trans h2.symm) hab
  | x :: y :: rest => simp

/-- A present field is a present key. -/
theorem bodyGet_mem_keys {b : Body} {k v : String}
    (h : bodyGet b k = some v) : k ∈ b.map Prod.fst := by
  induction b using List.reverseRecOn with
  | nil => simp [bodyGet] at h
  | append_singleton rest kv ih =>
    unfold bodyGet at h ih
    rw [List.foldl_append] at h
    simp only [List.foldl_cons, List.foldl_nil] at h
    by_cases hk : kv.1 = k
    · simp [hk.symm]
    · rw [if_neg hk] at h
      simp only [List.map_append, List.mem_append]
      exact Or.inl (ih h)

end DSM

namespace DSM

/-- **C7**: the delete action is allowed if and only if the caller's role is
`admin`; every other role is denied with 403 `Insufficient permissions`,
regardless of ownership (the decision never looks at the resource). -/
theorem delete_allowed_iff_admin (user : Identity) (cid : String) (store : Store) :
    ((deleteComponent user cid store).1.isForbidden = true ↔ user.role ≠ "admin") ∧
    (user.role ≠ "admin" →
      deleteComponent user cid store = (.forbidden "Insufficient permissions", store)) := by
  by_cases h : user.role = "admin"
  · constructor
    · unfold deleteComponent requireRole
      rw [if_pos (by simp [h])]
      cases findById store cid <;> simp [HttpResult.isForbidden, h]
    · intro hn; exact absurd h hn
  · unfold deleteComponent requireRole
    rw [if_neg (by simp [h])]
    exact ⟨⟨fun _ => h, fun _ => rfl⟩, fun _ => rfl⟩

/-- Witness for C7: a developer's delete attempt is denied with
`Insufficient permissions` and the store is untouched. -/
theorem delete_allowed_iff_admin_witness :
    deleteComponent developerUser "c1" [demoComponent]
      = (.forbidden "Insufficient permissions", [demoComponent]) :=
  (delete_allowed_iff_admin developerUser "c1" [demoComponent]).2 (by decide)

/-- The update handler either leaves the store unchanged or answers 200,
saving exactly the loaded document with the body applied and a fresh
`updatedAt`: every non-200 outcome happens before `save`. -/
theorem updateComponent_store_cases (user : Identity) (cid : String)
    (updates : Body) (now : Nat) (store : Store) :
    (updateComponent user cid updates now store).2 = store ∨
    ∃ c, findById store cid = some c ∧
      (updateComponent user cid updates now store).1
        = .ok { applyUpdates c updates with updatedAt := now } ∧
      (updateComponent user cid updates now store).2
        = saveStore store { applyUpdates c updates with updatedAt := now } := by
  unfold updateComponent
  cases hfind : findById store cid with
  | none => exact Or.inl rfl
  | some c =>
    dsimp only
    split_ifs <;> first
      | exact Or.inl rfl
      | exact Or.inr ⟨c, rfl, rfl, rfl⟩

/-- **C9**: whenever the update handler denies with 403, the store is
returned unchanged — every denial happens before the loaded document is
mutated or saved. -/
theorem update_denied_leaves_store_unchanged (user : Identity) (cid : String)
    (updates : Body) (now : Nat) (store : Store)
    (h : (updateComponent user cid updates now store).1.isForbidden = true) :
    (updateComponent user cid updates now store).2 = store := by
  rcases updateComponent_store_cases user cid updates now store with h2 | ⟨c, _, hok, _⟩
  · exact h2
  · rw [hok] at h
    simp [HttpResult.isForbidden] at h

/-- Witness for C9: a denied non-owner update leaves the store as it was. -/
theorem update_denied_leaves_store_unchanged_witness :
    (updateComponent developerUser "c1" [("name", "X")] 1 [demoComponent]).2
      = [demoComponent] :=
  update_denied_leaves_store_unchanged developerUser "c1" [("name", "X")] 1
    [demoComponent] (by decide)

/-- **C10**: delete checks the caller's role before resource existence — a
non-admin gets `Insufficient permissions` on any id, present or not — while
update checks existence first: an absent id yields 404 for every caller. -/
theorem delete_role_first_update_existence_first (user user2 : Identity)
    (cid : String) (store : Store) (updates : Body) (now : Nat) :
    (user.role ≠ "admin" →
      deleteComponent user cid store = (.forbidden "Insufficient permissions", store)) ∧
    (findById store cid = none →
      updateComponent user2 cid updates now store = (.notFound "Component not found", store)) := by
  constructor
  · intro h
    unfold deleteComponent requireRole
    rw [if_neg (by simp [h])]
  · intro h
    unfold updateComponent
    rw [h]

/-- Witness for C10: a developer's delete of a non-existent id is 403 (not
404), while an admin's update of a non-existent id is 404. -/
theorem delete_role_first_update_existence_first_witness :
    deleteComponent developerUser "nope" [] = (.forbidden "Insufficient permissions", []) ∧
    updateComponent adminUser "nope" [("name", "X")] 1 [] = (.notFound "Component not found", []) :=
  ⟨(delete_role_first_update_existence_first developerUser adminUser "nope" []
      [("name", "X")] 1).1 (by decide),
   (delete_role_first_update_existence_first developerUser adminUser "nope" []
      [("name", "X")] 1).2 (by decide)⟩

end DSM

namespace DSM

/-- The tail of the update handler (validate, then save or 500) never
produces a 403: authorization is fully decided before it. -/
theorem proceed_not_forbidden (u : Component) (store : Store) :
    ((if u.valid = true then (HttpResult.ok u, saveStore store u)
      else (HttpResult.serverError "validation failed", store)).1).isForbidden = false := by
  split <;> rfl

/-- **C8** counterexample: an expired (well-formed, correctly signed) token
is rejected with status 403 — the very status code every `Forbidden` denial
of the routes uses — and message `Invalid or expired token`, while a
missing token is rejected with status 401 `Access token required`; so
credential failure is not a single `Unauthenticated` kind and does surface
with the Forbidden status, contrary to the claim. -/
theorem expired_token_rejected_with_forbidden_status :
    authenticateToken (some expiredToken) = .error (403, "Invalid or expired token") ∧
    (HttpResult.forbidden "Permission denied").statusCode = 403 ∧
    authenticateToken none = .error (401, "Access token required") ∧
    (403 : Nat) ≠ 401 := by
  refine ⟨rfl, rfl, rfl, by decide⟩

/-- **C8** (amended): every malformed, mis-signed, or expired token fails
verification with 403 `Invalid or expired token` and never yields an
identity, and a missing token fails with 401 `Access token required`. -/
theorem token_verification_failures (t : RawToken)
    (h : t.wellFormed = false ∨ t.signatureValid = false ∨ t.expired = true) :
    authenticateToken (some t) = .error (403, "Invalid or expired token") ∧
    (∀ u, authenticateToken (some t) ≠ .ok u) ∧
    authenticateToken none = .error (401, "Access token required") := by
  have hv : verifyToken t = none := by
    unfold verifyToken
    rcases h with h | h | h <;> simp [h]
  refine ⟨?_, ?_, rfl⟩
  · unfold authenticateToken
    dsimp only
    rw [hv]
  · intro u hu
    unfold authenticateToken at hu
    dsimp only at hu
    rw [hv] at hu
    exact Except.noConfusion hu

/-- Witness for C8 (amended), at the expired token. -/
theorem token_verification_failures_witness :
    authenticateToken (some expiredToken) = .error (403, "Invalid or expired token") ∧
    authenticateToken none = .error (401, "Access token required") :=
  ⟨(token_verification_failures expiredToken (by decide)).1,
   (token_verification_failures expiredToken (by decide)).2.2⟩

/-- **C5** counterexample: a create request that supplies `status: "review"`
yields a resource whose status is `review`, not `draft` — the handler uses
`status: status || 'draft'`, a default, not a constant. -/
theorem create_honors_client_status :
    (createComponent ownerUser { demoCreateBody with status := some "review" } "c9" 0 []).1
      = .created { demoCreated with status := "review" } ∧
    ({ demoCreated with status := "review" } : Component).status ≠ "draft" := by
  refine ⟨rfl, by decide⟩

/-- **C5** (amended): a created resource's status is the client-supplied
status when one is given, and defaults to `draft` exactly when the body's
status field is absent or empty. -/
theorem created_status_defaults_to_draft (user : Identity) (b : CreateBody)
    (newId : String) (now : Nat) (store : Store) (c : Component)
    (h : (createComponent user b newId now store).1 = .created c) :
    c.status = jsOr b.status "draft" ∧ (jsFalsy b.status = true → c.status = "draft") := by
  unfold createComponent at h
  split_ifs at h with h1
  simp only [] at h
  split_ifs at h with h2
  simp only [HttpResult.created.injEq] at h
  constructor
  · rw [← h]
  · intro hf
    rw [← h]
    show jsOr b.status "draft" = "draft"
    unfold jsOr
    rw [if_pos hf]

/-- Witness for C5 (amended): the demo body has no status field, and the
created document's status is `draft`. -/
theorem created_status_defaults_to_draft_witness :
    (createComponent ownerUser demoCreateBody "c9" 0 []).1 = .created demoCreated ∧
    demoCreated.status = "draft" :=
  ⟨by decide,
   (created_status_defaults_to_draft ownerUser demoCreateBody "c9" 0 [] demoCreated
      (by decide)).2 (by decide)⟩

/-- **C4** counterexample: the owner (a designer) is denied on their own
resource when the update sets status to `approved` — ownership does not
allow every field set. -/
theorem owner_denied_on_approve :
    ownerUser.id = demoComponent.createdBy ∧
    (updateComponent ownerUser "c1" [("status", "approved")] 1 [demoComponent]).1
      = .forbidden "Only admins can approve components" := by
  refine ⟨rfl, rfl⟩

/-- **C4** (amended): an update by the resource's owner passes
authorization (is never 403), for any role and any field set, provided the
update does not set status to `approved` while the owner is not an admin. -/
theorem owner_update_passes_authorization (user : Identity) (cid : String)
    (updates : Body) (now : Nat) (store : Store) (c : Component)
    (hfind : findById store cid = some c)
    (hown : user.id = c.createdBy)
    (happ : bodyGet updates "status" = some "approved" → user.role = "admin") :
    (updateComponent user cid updates now store).1.isForbidden = false := by
  unfold updateComponent
  rw [hfind]
  dsimp only
  have hc1 : (c.createdBy != user.id && user.role != "admin") = false := by
    simp [hown]
  rw [if_neg (by simp [hc1])]
  by_cases hb : bodyGet updates "status" = some "approved"
  · rw [if_neg (by simp [happ hb])]
    exact proceed_not_forbidden _ _
  · have hg : (bodyGet updates "status" == some "approved") = false := by
      simpa using hb
    rw [if_neg (by simp [hg])]
    exact proceed_not_forbidden _ _

/-- Witness for C4 (amended): the owner renaming their own component is not
denied. -/
theorem owner_update_passes_authorization_witness :
    (updateComponent ownerUser "c1" [("name", "Updated")] 1 [demoComponent]).1.isForbidden
      = false :=
  owner_update_passes_authorization ownerUser "c1" [("name", "Updated")] 1
    [demoComponent] demoComponent (by decide) (by decide) (by decide)

end DSM

namespace DSM

/-- **C1** counterexample: a non-owner, non-admin *designer* submitting an
update whose field set is exactly `{status: "review"}` is allowed (200 with
the status applied), where the claim requires denial for every non-owner
non-admin caller. -/
theorem nonowner_designer_review_allowed :
    otherDesigner.id ≠ demoComponent.createdBy ∧
    otherDesigner.role ≠ "admin" ∧
    (updateComponent otherDesigner "c1" [("status", "review")] 1 [demoComponent]).1
      = .ok { demoComponent with status := "review", updatedAt := 1 } := by
  refine ⟨by decide, by decide, rfl⟩

/-- **C1** (amended): an update whose field set is exactly
`{status: "review"}` is denied iff the caller is not the owner, not an
admin, and not a designer — the code's narrow exemption admits any
designer, owner or not — and any such denial is `Permission denied`. -/
theorem review_only_update_authorization (user : Identity) (cid : String)
    (updates : Body) (now : Nat) (store : Store) (c : Component)
    (hfind : findById store cid = some c)
    (hkeys : (updates.map Prod.fst).dedup = ["status"])
    (hval : bodyGet updates "status" = some "review") :
    ((updateComponent user cid updates now store).1.isForbidden = true ↔
      ¬(user.id = c.createdBy ∨ user.role = "admin" ∨ user.role = "designer")) ∧
    ((updateComponent user cid updates now store).1.isForbidden = true →
      (updateComponent user cid updates now store).1 = .forbidden "Permission denied") := by
  unfold updateComponent
  rw [hfind]
  dsimp only
  have hnum : numKeys updates = 1 := by
    unfold numKeys
    rw [hkeys]
    rfl
  have hg : (bodyGet updates "status" == some "approved") = false := by
    rw [hval]
    decide
  by_cases hA : (c.createdBy != user.id && user.role != "admin") = true
  · have hA' : c.createdBy ≠ user.id ∧ user.role ≠ "admin" := by
      simpa [Bool.and_eq_true, bne_iff_ne] using hA
    rw [if_pos hA]
    by_cases hD : user.role = "designer"
    · have hE : (user.role == "designer" && numKeys updates == 1 &&
          bodyGet updates "status" == some "review") = true := by
        rw [hD, hnum, hval]
        decide
      rw [if_pos hE, if_neg (by rw [hg]; simp)]
      constructor
      · constructor
        · intro hf
          rw [proceed_not_forbidden] at hf
          exact Bool.noConfusion hf
        · intro hcon
          exact absurd (Or.inr (Or.inr hD)) hcon
      · intro hf
        rw [proceed_not_forbidden] at hf
        exact Bool.noConfusion hf
    · have hDf : (user.role == "designer") = false := by
        simp only [beq_eq_false_iff_ne, ne_eq]
        exact hD
      have hE : (user.role == "designer" && numKeys updates == 1 &&
          bodyGet updates "status" == some "review") = false := by
        rw [hDf]
        simp
      rw [if_neg (by rw [hE]; simp)]
      constructor
      · constructor
        · intro _
          rintro (hc | hc | hc)
          · exact hA'.1 hc.symm
          · exact hA'.2 hc
          · exact hD hc
        · intro _
          rfl
      · intro _
        rfl
  · have himp : ¬c.createdBy = user.id → user.role = "admin" := by
      simpa [Bool.and_eq_true, bne_iff_ne] using hA
    have hOA : user.id = c.createdBy ∨ user.role = "admin" := by
      by_cases hc : c.createdBy = user.id
      · exact Or.inl hc.symm
      · exact Or.inr (himp hc)
    rw [if_neg hA, if_neg (by rw [hg]; simp)]
    constructor
    · constructor
      · intro hf
        rw [proceed_not_forbidden] at hf
        exact Bool.noConfusion hf
      · intro hcon
        rcases hOA with hc | hc
        · exact absurd (Or.inl hc) hcon
        · exact absurd (Or.inr (Or.inl hc)) hcon
    · intro hf
      rw [proceed_not_forbidden] at hf
      exact Bool.noConfusion hf

/-- Witness for C1 (amended): a non-owner developer's exact
`{status: "review"}` update is denied with `Permission denied`. -/
theorem review_only_update_authorization_witness :
    (updateComponent developerUser "c1" [("status", "review")] 1 [demoComponent]).1
      = .forbidden "Permission denied" :=
  (review_only_update_authorization developerUser "c1" [("status", "review")] 1
      [demoComponent] demoComponent (by decide) (by decide) (by decide)).2 (by decide)

end DSM

namespace DSM

/-- **C3** counterexample: a non-owner, non-admin developer setting status
to `approved` is denied by the *ownership* rule first, with
`Permission denied` — not with the claim's `only admins can approve`
message, so the approve rule is not evaluated before the ownership rule. -/
theorem nonowner_approve_gets_permission_denied :
    developerUser.role ≠ "admin" ∧
    (updateComponent developerUser "c1" [("status", "approved")] 1 [demoComponent]).1
      = .forbidden "Permission denied" ∧
    HttpResult.forbidden "Permission denied"
      ≠ .forbidden "Only admins can approve components" := by
  refine ⟨by decide, rfl, by decide⟩

/-- **C3** (amended): an update that sets status to `approved` is allowed
iff the caller is an admin; a non-admin owner is denied with
`Only admins can approve components`, while a non-admin non-owner is denied
with `Permission denied` — the ownership rule runs first. -/
theorem approve_allowed_iff_admin (user : Identity) (cid : String)
    (updates : Body) (now : Nat) (store : Store) (c : Component)
    (hfind : findById store cid = some c)
    (hst : bodyGet updates "status" = some "approved") :
    ((updateComponent user cid updates now store).1.isForbidden = true ↔
      user.role ≠ "admin") ∧
    (user.role ≠ "admin" →
      (updateComponent user cid updates now store).1 =
        if user.id = c.createdBy then HttpResult.forbidden "Only admins can approve components"
        else HttpResult.forbidden "Permission denied") := by
  unfold updateComponent
  rw [hfind]
  dsimp only
  by_cases hadm : user.role = "admin"
  · have h1 : (c.createdBy != user.id && user.role != "admin") = false := by
      rw [hadm]
      simp
    have hg : (bodyGet updates "status" == some "approved" && user.role != "admin") = false := by
      rw [hadm]
      simp
    rw [if_neg (by rw [h1]; simp), if_neg (by rw [hg]; simp)]
    constructor
    · constructor
      · intro hf
        rw [proceed_not_forbidden] at hf
        exact Bool.noConfusion hf
      · intro hcon
        exact absurd hadm hcon
    · intro hcon
      exact absurd hadm hcon
  · have hr : (user.role != "admin") = true := by
      simp only [bne_iff_ne, ne_eq]
      exact hadm
    by_cases hown : user.id = c.createdBy
    · have h1 : (c.createdBy != user.id && user.role != "admin") = false := by
        rw [show c.createdBy = user.id from hown.symm]
        simp
      have hg : (bodyGet updates "status" == some "approved" && user.role != "admin") = true := by
        rw [hst, hr]
        decide
      rw [if_neg (by rw [h1]; simp), if_pos hg]
      constructor
      · exact ⟨fun _ => hadm, fun _ => rfl⟩
      · intro _
        rw [if_pos hown]
    · have h1 : (c.createdBy != user.id && user.role != "admin") = true := by
        rw [hr]
        simp only [Bool.and_true, bne_iff_ne, ne_eq]
        exact fun hc => hown hc.symm
      have hrev : (bodyGet updates "status" == some "review") = false := by
        rw [hst]
        decide
      have hE : (user.role == "designer" && numKeys updates == 1 &&
          bodyGet updates "status" == some "review") = false := by
        rw [hrev]
        simp
      rw [if_pos h1, if_neg (by rw [hE]; simp)]
      constructor
      · exact ⟨fun _ => hadm, fun _ => rfl⟩
      · intro _
        rw [if_neg hown]

/-- Witness for C3 (amended): the owner (a designer) trying to approve
their own component is denied with `Only admins can approve components`. -/
theorem approve_allowed_iff_admin_witness :
    (updateComponent ownerUser "c1" [("status", "approved")] 1 [demoComponent]).1
      = if ownerUser.id = demoComponent.createdBy
        then HttpResult.forbidden "Only admins can approve components"
        else HttpResult.forbidden "Permission denied" :=
  (approve_allowed_iff_admin ownerUser "c1" [("status", "approved")] 1 [demoComponent]
      demoComponent (by decide) (by decide)).2 (by decide)

end DSM

namespace DSM

/-- **C6**: for a non-owner non-admin caller, a body containing a status
field together with at least one other field is a general update, denied
with `Permission denied` (whatever the status value); and whenever such a
caller is *not* denied, the body's field set was exactly
`{status: "review"}`. -/
theorem mixed_update_is_general_update (user : Identity) (cid : String)
    (updates : Body) (now : Nat) (store : Store) (c : Component)
    (hfind : findById store cid = some c)
    (hnotown : user.id ≠ c.createdBy)
    (hnotadmin : user.role ≠ "admin") :
    (∀ s k, bodyGet updates "status" = some s → k ∈ updates.map Prod.fst →
      k ≠ "status" →
      (updateComponent user cid updates now store).1 = .forbidden "Permission denied") ∧
    ((updateComponent user cid updates now store).1.isForbidden = false →
      (∀ k ∈ updates.map Prod.fst, k = "status") ∧
      bodyGet updates "status" = some "review") := by
  unfold updateComponent
  rw [hfind]
  dsimp only
  have h1 : (c.createdBy != user.id && user.role != "admin") = true := by
    simp only [Bool.and_eq_true, bne_iff_ne, ne_eq]
    exact ⟨fun hc => hnotown hc.symm, hnotadmin⟩
  rw [if_pos h1]
  constructor
  · intro s k hs hk hks
    have hstat : "status" ∈ updates.map Prod.fst := bodyGet_mem_keys hs
    have h2 : 2 ≤ numKeys updates :=
      two_le_dedup_length hstat hk (fun hc => hks hc.symm)
    have hn1 : (numKeys updates == 1) = false := by
      simp only [beq_eq_false_iff_ne, ne_eq]
      omega
    have hE : (user.role == "designer" && numKeys updates == 1 &&
        bodyGet updates "status" == some "review") = false := by
      rw [hn1]
      simp
    rw [if_neg (by rw [hE]; simp)]
  · intro hok
    by_cases hE : (user.role == "designer" && numKeys updates == 1 &&
        bodyGet updates "status" == some "review") = true
    · have hE' : (user.role = "designer" ∧ numKeys updates = 1) ∧
          bodyGet updates "status" = some "review" := by
        simpa [Bool.and_eq_true, beq_iff_eq] using hE
      obtain ⟨⟨_, hn⟩, hr⟩ := hE'
      refine ⟨?_, hr⟩
      intro k hk
      by_contra hne
      have hstat : "status" ∈ updates.map Prod.fst := bodyGet_mem_keys hr
      have h2 : 2 ≤ numKeys updates :=
        two_le_dedup_length hstat hk (fun hc => hne hc.symm)
      omega
    · rw [if_neg hE] at hok
      exact absurd hok (by simp [HttpResult.isForbidden])

/-- Witness for C6: a non-owner designer's mixed body
`{status: "review", name: "X"}` is denied with `Permission denied`, while
the exact single-field body `{status: "review"}` passes (and its field set
is exactly the status key). -/
theorem mixed_update_is_general_update_witness :
    (updateComponent otherDesigner "c1" [("status", "review"), ("name", "X")] 1
        [demoComponent]).1 = .forbidden "Permission denied" ∧
    ((∀ k ∈ ([("status", "review")] : Body).map Prod.fst, k = "status") ∧
      bodyGet [("status", "review")] "status" = some "review") :=
  ⟨(mixed_update_is_general_update otherDesigner "c1"
      [("status", "review"), ("name", "X")] 1 [demoComponent] demoComponent
      (by decide) (by decide) (by decide)).1 "review" "name"
      (by decide) (by decide) (by decide),
   (mixed_update_is_general_update otherDesigner "c1" [("status", "review")] 1
      [demoComponent] demoComponent (by decide) (by decide) (by decide)).2
      (by decide)⟩

end DSM

namespace DSM

/-- **C2** counterexample: an authorized update whose body contains a
`createdBy` field *does* reassign the stored owner — `Object.assign` copies
every schema field of the body, `createdBy` included. -/
theorem update_can_reassign_owner :
    demoComponent.createdBy = "u1" ∧
    findById (updateComponent adminUser "c1" [("createdBy", "u9")] 1 [demoComponent]).2 "c1"
      = some { demoComponent with createdBy := "u9", updatedAt := 1 } ∧
    ("u9" : String) ≠ "u1" := by
  refine ⟨rfl, rfl, by decide⟩

/-- **C2** (amended): `createdBy` is set at creation from the authenticated
caller's id; an update whose body contains no `createdBy` field leaves the
stored owner unchanged (but a body containing `createdBy` can reassign it,
as the counterexample
shows). -/
theorem owner_set_at_creation_and_kept_without_createdBy_field (user : Identity) :
    (∀ (b : CreateBody) (newId : String) (now : Nat) (store : Store) (c : Component),
      (createComponent user b newId now store).1 = .created c →
      c.createdBy = user.id) ∧
    (∀ (cid : String) (updates : Body) (now : Nat) (store : Store) (c : Component),
      "createdBy" ∉ updates.map Prod.fst →
      findById store cid = some c →
      ∃ c2, findById (updateComponent user cid updates now store).2 cid = some c2 ∧
        c2.createdBy = c.createdBy) := by
  constructor
  · intro b newId now store c h
    unfold createComponent at h
    split_ifs at h with h1
    simp only [] at h
    split_ifs at h with h2
    simp only [HttpResult.created.injEq] at h
    rw [← h]
  · intro cid updates now store c hnot hfind
    rcases updateComponent_store_cases user cid updates now store with h2 | ⟨c0, hfind0, _, hsave⟩
    · refine ⟨c, ?_, rfl⟩
      rw [h2, hfind]
    · have hc0 : c0 = c := by
        rw [hfind0] at hfind
        exact Option.some.inj hfind
      subst hc0
      have hid : ({ applyUpdates c0 updates with updatedAt := now } : Component).id = cid := by
        show (applyUpdates c0 updates).id = cid
        rw [applyUpdates_id]
        exact findById_some_id hfind0
      refine ⟨{ applyUpdates c0 updates with updatedAt := now }, ?_, ?_⟩
      · rw [hsave]
        exact findById_saveStore hfind0 hid
      · show (applyUpdates c0 updates).createdBy = c0.createdBy
        exact applyUpdates_createdBy updates c0 hnot

/-- Witness for C2 (amended): creating from the demo body stamps the
caller as owner, and the owner's rename leaves `createdBy` intact. -/
theorem owner_set_at_creation_witness :
    demoCreated.createdBy = ownerUser.id ∧
    (∃ c2, findById (updateComponent ownerUser "c1" [("name", "X")] 1 [demoComponent]).2 "c1"
        = some c2 ∧ c2.createdBy = demoComponent.createdBy) :=
  ⟨(owner_set_at_creation_and_kept_without_createdBy_field ownerUser).1
      demoCreateBody "c9" 0 [] demoCreated (by decide),
   (owner_set_at_creation_and_kept_without_createdBy_field ownerUser).2
      "c1" [("name", "X")] 1 [demoComponent] demoComponent (by decide) (by decide)⟩

end DSM
